import Mathlib

/-!
Shallow embedding of the ai-dashboard in-memory tabular data engine
(`src/app/api/mistral/route.ts`): cells, JavaScript value coercions, the
filter → sort → pagination pipeline, the metrics effect, the chart
projection and the instruction-resolver acceptance logic, together with
theorems about the specified properties.

Modelling conventions:
- a JavaScript number is modelled as `ℚ` (exact arithmetic on the decimal
  literals the dashboard handles); NaN is `none` in `Option ℚ`;
- `undefined` (out-of-range index access) is the cell `Cell.undefined`;
- a `Date` value is `Option Int` with `none` for an Invalid Date, via an
  order-preserving code of the `YYYY-MM-DD` strings the date inputs emit;
- `Array.prototype.sort` (stable per ECMAScript) is `List.mergeSort`.
-/

/-- A table cell as it exists at runtime in the dashboard: a string (CSV
parsing yields strings), a number (XLSX parsing can yield numbers; the
integral values are modelled exactly), or JavaScript `undefined` as produced
by out-of-range index access such as `row[-1]`. -/
inductive Cell where
  | str (s : String)
  | num (n : Int)
  | undefined
deriving DecidableEq, Repr

/-- A data row: an ordered sequence of cells. -/
abbrev Row := List Cell

/-- Leading decimal digits of a character list, paired with the rest. -/
def takeDigits : List Char → List Char × List Char
  | [] => ([], [])
  | c :: cs =>
    if c.isDigit then
      let p := takeDigits cs
      (c :: p.1, p.2)
    else ([], c :: cs)

/-- Value of a digit run. -/
def digitsVal (ds : List Char) : Nat :=
  ds.foldl (fun n c => 10 * n + (c.toNat - 48)) 0

/-- Optional sign marker: returns (negative?, rest). -/
def takeSign : List Char → Bool × List Char
  | '-' :: cs => (true, cs)
  | '+' :: cs => (false, cs)
  | cs => (false, cs)

/-- Parse a leading decimal literal `[+-]digits[.digits]` or `[+-].digits`;
returns its value and the unconsumed characters, `none` when no digit is
found. This is the common prefix grammar of JavaScript `parseFloat` and
`Number` (hex and exponent forms do not occur in the dashboard's data). -/
def takeDecimal (cs : List Char) : Option (ℚ × List Char) :=
  let sg := takeSign cs
  let ip := takeDigits sg.2
  let core : Option (ℚ × List Char) :=
    match ip.2 with
    | '.' :: cs2 =>
      let fp := takeDigits cs2
      if ip.1.isEmpty && fp.1.isEmpty then none
      else some ((digitsVal ip.1 : ℚ) + (digitsVal fp.1 : ℚ) / ((10 : ℚ) ^ fp.1.length), fp.2)
    | rest => if ip.1.isEmpty then none else some ((digitsVal ip.1 : ℚ), rest)
  core.map fun p => (if sg.1 then -p.1 else p.1, p.2)

/-- Drop leading JavaScript whitespace. -/
def dropWs (cs : List Char) : List Char := cs.dropWhile Char.isWhitespace

/-- Trim whitespace at both ends. -/
def trimWs (cs : List Char) : List Char :=
  ((cs.dropWhile Char.isWhitespace).reverse.dropWhile Char.isWhitespace).reverse

/-- JavaScript `parseFloat` on a string: the longest valid numeric prefix
after leading whitespace; `none` is NaN. -/
def jsParseFloatStr (s : String) : Option ℚ :=
  (takeDecimal (dropWs s.data)).map Prod.fst

/-- JavaScript `parseInt` (radix 10) on a string. -/
def jsParseIntStr (s : String) : Option Int :=
  let cs := dropWs s.data
  let sg := takeSign cs
  let ds := takeDigits sg.2
  if ds.1.isEmpty then none
  else some (if sg.1 then -(digitsVal ds.1 : Int) else (digitsVal ds.1 : Int))

/-- JavaScript `Number()` on a string: the whitespace-trimmed empty string is
0, otherwise the whole trimmed string must be a decimal literal, else NaN. -/
def jsNumberStr (s : String) : Option ℚ :=
  let cs := trimWs s.data
  if cs.isEmpty then some 0
  else
    match takeDecimal cs with
    | some (q, []) => some q
    | _ => none

/-- `String(cell)`. -/
def cellToString : Cell → String
  | .str s => s
  | .num n => toString n
  | .undefined => "undefined"

/-- `Number(cell)` — also the coercion applied by `isNaN` and by the `-`
operator in the sort comparator; `none` is NaN. -/
def jsToNumber : Cell → Option ℚ
  | .str s => jsNumberStr s
  | .num n => some (n : ℚ)
  | .undefined => none

/-- `parseFloat(cell)`: the argument is stringified first. -/
def jsParseFloatCell (c : Cell) : Option ℚ := jsParseFloatStr (cellToString c)

/-- `parseInt(cell)`: the argument is stringified first. -/
def jsParseIntCell (c : Cell) : Option Int := jsParseIntStr (cellToString c)

/-- Parse a `YYYY-MM-DD` date string into the order-preserving code
`y*10000 + m*100 + d`; anything else is an Invalid Date (`none`), matching
`new Date(string)` on the strings the dashboard's date inputs produce. -/
def parseIsoDate (s : String) : Option Int :=
  match s.data with
  | [y1, y2, y3, y4, '-', m1, m2, '-', d1, d2] =>
    if ([y1, y2, y3, y4, m1, m2, d1, d2].all Char.isDigit) then
      let m := digitsVal [m1, m2]
      let d := digitsVal [d1, d2]
      if 1 ≤ m ∧ m ≤ 12 ∧ 1 ≤ d ∧ d ≤ 31 then
        some (10000 * (digitsVal [y1, y2, y3, y4] : Int) + 100 * m + d)
      else none
    else none
  | _ => none

/-- Model of `new Date(v).getTime()`; `none` is an Invalid Date. `new Date`
never throws: invalid input yields an Invalid Date object. -/
def jsDate : Cell → Option Int
  | .str s => parseIsoDate s
  | .num n => some n
  | .undefined => none

/-- `pat` is a character-wise prefix of the second list. -/
def isPrefixL : List Char → List Char → Bool
  | [], _ => true
  | _ :: _, [] => false
  | a :: as, b :: bs => a == b && isPrefixL as bs

/-- Occurrence of `pat` at any position (JavaScript `includes`). -/
def containsL (pat : List Char) : List Char → Bool
  | [] => pat.isEmpty
  | c :: rest => isPrefixL pat (c :: rest) || containsL pat rest

/-- `s.includes(pat)`. -/
def strIncludes (s pat : String) : Bool := containsL pat.data s.data

/-- `toLowerCase` on the ASCII range, character by character. -/
def lowerL (cs : List Char) : List Char :=
  cs.map fun c => if 'A' ≤ c ∧ c ≤ 'Z' then Char.ofNat (c.toNat + 32) else c

/-- `s.toLowerCase().includes(pat.toLowerCase())`. -/
def strIncludesLower (s pat : String) : Bool :=
  containsL (lowerL pat.data) (lowerL s.data)

/-- Text filter stage (route.ts:407-413): keep a row when any cell,
stringified and lowercased, contains the lowercased filter text. -/
def rowMatchesText (t : String) (row : Row) : Bool :=
  row.any fun cell => strIncludesLower (cellToString cell) t

/-- The text stage is skipped when the filter text is empty (JS truthiness of
`filterText`). -/
def textFilter (t : String) (rows : List Row) : List Row :=
  if t = "" then rows else rows.filter (rowMatchesText t)

/-- `columns.findIndex(col => col.toLowerCase().includes('date') ||
col.toLowerCase().includes('time'))`, with `none` for `-1`. -/
def findDateColumn (columns : List String) : Option Nat :=
  columns.findIdx? fun col =>
    strIncludesLower col "date" || strIncludesLower col "time"

/-- `dv >= bound` on `Date` objects as JavaScript evaluates it: an Invalid
Date on either side makes the comparison `false` (its primitive is NaN). -/
def dateGe (dv bound : Option Int) : Bool :=
  match dv, bound with
  | some d, some b => b ≤ d
  | _, _ => false

/-- `dv <= bound` on `Date` objects; `false` whenever either is Invalid. -/
def dateLe (dv bound : Option Int) : Bool :=
  match dv, bound with
  | some d, some b => d ≤ b
  | _, _ => false

/-- Per-row predicate of the date-range stage (route.ts:422-440). The
`startDate`/`endDate` objects are non-null exactly when the corresponding
string is non-empty (even an Invalid Date object is truthy), and since
neither `new Date` nor `Date` comparison throws, the `catch` branch of the
source (route.ts:436-439, `return true`) is unreachable. -/
def dateRangePass (startS endS : String) (dv : Option Int) : Bool :=
  if startS ≠ "" ∧ endS ≠ "" then
    dateGe dv (parseIsoDate startS) && dateLe dv (parseIsoDate endS)
  else if startS ≠ "" then dateGe dv (parseIsoDate startS)
  else if endS ≠ "" then dateLe dv (parseIsoDate endS)
  else true

/-- `row[i]` for a nonnegative JavaScript index (`undefined` out of range). -/
def cellAt (row : Row) (i : Nat) : Cell := (row.get? i).getD .undefined

/-- `row[i]` for a possibly negative index (an `indexOf` miss gives `-1`). -/
def cellAtInt (row : Row) (i : Int) : Cell :=
  if i < 0 then .undefined else cellAt row i.toNat

/-- Date-range filter stage (route.ts:416-442): active when either bound
string is non-empty and a date/time column exists. -/
def dateFilter (columns : List String) (startS endS : String) (rows : List Row) : List Row :=
  if startS = "" ∧ endS = "" then rows
  else
    match findDateColumn columns with
    | none => rows
    | some i => rows.filter fun row => dateRangePass startS endS (jsDate (cellAt row i))

/-- `columns.indexOf(c)`: first index or `-1`. -/
def indexOfStr (columns : List String) (c : String) : Int :=
  match columns.findIdx? (fun x => x == c) with
  | some i => (i : Int)
  | none => -1

/-- Column-selection projection stage (route.ts:445-448): active when the
selection is non-empty and strictly smaller than the header. -/
def projectColumns (columns selected : List String) (rows : List Row) : List Row :=
  if 0 < selected.length ∧ selected.length < columns.length then
    let idxs := selected.map (indexOfStr columns)
    rows.map fun row => idxs.map (cellAtInt row)
  else rows

/-- Sort direction. -/
inductive SortDir where
  | asc
  | desc
deriving DecidableEq, Repr

/-- Model of `String.prototype.localeCompare`: the case-sensitive code-point
linear order on strings, as `-1`/`0`/`1`. -/
def localeCompare (a b : String) : Int :=
  if a < b then -1 else if a = b then 0 else 1

/-- The sort comparator (route.ts:452-466): numeric difference when neither
cell's `Number` coercion is NaN (`!isNaN(valA) && !isNaN(valB)`), otherwise
`localeCompare` of the stringified cells; `desc` swaps the operands. The
inner `catch` (route.ts:462-465) is unreachable: nothing here throws. -/
def cellCmp (dir : SortDir) (va vb : Cell) : ℚ :=
  match jsToNumber va, jsToNumber vb with
  | some x, some y => match dir with | .asc => x - y | .desc => y - x
  | _, _ =>
    match dir with
    | .asc => (localeCompare (cellToString va) (cellToString vb) : ℚ)
    | .desc => (localeCompare (cellToString vb) (cellToString va) : ℚ)

/-- Comparator lifted to rows at the sort column (`a[sortColumn]`). -/
def rowCmp (col : Nat) (dir : SortDir) (a b : Row) : ℚ :=
  cellCmp dir (cellAt a col) (cellAt b col)

/-- The `≤`-relation induced by the comparator, driving the stable sort. -/
def rowLe (col : Nat) (dir : SortDir) (a b : Row) : Bool :=
  decide (rowCmp col dir a b ≤ 0)

/-- Sort stage (route.ts:451-467): `[...rows].sort(cmp)` — a stable sort of
a copy of the row list, modelled by `List.mergeSort`. -/
def sortRows (sortColumn : Option Nat) (dir : SortDir) (rows : List Row) : List Row :=
  match sortColumn with
  | none => rows
  | some col => rows.mergeSort (rowLe col dir)

/-- `rowLe` restricted to the members of a fixed row list (used to reason
about sorting when the comparator is only well-behaved on those rows). -/
def rowLeMem (col : Nat) (dir : SortDir) (rows : List Row) :
    {r : Row // r ∈ rows} → {r : Row // r ∈ rows} → Bool :=
  fun x y => rowLe col dir x.1 y.1

/-- The `filteredData` memo (route.ts:402-474): over `data.slice(1)`, the
text filter, then the date-range filter, then column projection, then the
sort. -/
def filteredData (data : List Row) (columns : List String) (filterText : String)
    (dateStart dateEnd : String) (selected : List String)
    (sortColumn : Option Nat) (dir : SortDir) : List Row :=
  sortRows sortColumn dir
    (projectColumns columns selected
      (dateFilter columns dateStart dateEnd
        (textFilter filterText (data.drop 1))))

/-- `rowsPerPage` (route.ts:209). -/
def rowsPerPage : Nat := 10

/-- `paginatedRows` (route.ts:481-484): `filteredData.slice(start, start+10)`
with `start = (currentPage - 1) * rowsPerPage`. -/
def paginatedRows (page : Nat) (rows : List Row) : List Row :=
  (rows.drop ((page - 1) * rowsPerPage)).take rowsPerPage

/-- `totalPages = Math.ceil(filteredData.length / rowsPerPage)`
(route.ts:486). -/
def totalPages (n : Nat) : Nat := (n + (rowsPerPage - 1)) / rowsPerPage

/-- `Array.from({length: k}, (_, i) => start + i)`. -/
def pageWindow (s : Int) (k : Nat) : List Int :=
  (List.range k).map fun i : Nat => s + (i : Int)

/-- `visiblePages` (route.ts:492-500) with `maxPagesToShow = 5`. -/
def visiblePages (currentPage tp : Int) : List Int :=
  let start0 := max 1 (currentPage - 2)
  let e := min tp (start0 + 4)
  let start := if e - start0 < 4 then max 1 (e - 4) else start0
  pageWindow start (e - start + 1).toNat

/-- A chart selection: type plus the two axis columns. -/
structure ChartSelection where
  chartType : String
  xColumn : String
  yColumn : String
deriving DecidableEq, Repr

/-- The data handed to the chart renderer. -/
structure ChartData where
  labels : List Cell
  datasetLabel : String
  datasetData : List (Option ℚ)
deriving DecidableEq, Repr

/-- `chartData` (route.ts:507-529): labels from `xColumn` when it is truthy
and present in the header, dataset values from `yColumn` through `Number`
(NaN as `none`); the chart type is never read here. -/
def chartData (columns : List String) (data : List Row) (sel : ChartSelection) : ChartData :=
  { labels :=
      if sel.xColumn ≠ "" ∧ columns.contains sel.xColumn then
        (data.drop 1).map fun row => cellAtInt row (indexOfStr columns sel.xColumn)
      else []
    datasetLabel := sel.yColumn
    datasetData :=
      if sel.yColumn ≠ "" ∧ columns.contains sel.yColumn then
        (data.drop 1).map fun row => jsToNumber (cellAtInt row (indexOfStr columns sel.yColumn))
      else [] }

/-- The metrics record (route.ts:197-202). -/
structure Metrics where
  revenue : ℚ
  users : Int
  conversions : Int
  growth : ℚ
deriving DecidableEq, Repr

/-- Initial metrics state: all zero (route.ts:197-202). -/
def metricsInit : Metrics := ⟨0, 0, 0, 0⟩

/-- Cell of `row` in the named column; `undefined` when the column is absent
(`header.indexOf` yields `-1` and `row[-1]` is `undefined`). -/
def namedCell (columns : List String) (name : String) (row : Row) : Cell :=
  cellAtInt row (indexOfStr columns name)

/-- Body of the metrics effect (route.ts:324-361): reductions with
`parseFloat`/`parseInt`, unparsable cells defaulting to 0 via `|| 0`, and
the growth sum divided by `rows.length` (at least 1 under the caller's
guard, so the division is never the 0-denominator case). -/
def computeMetrics (columns : List String) (data : List Row) : Metrics :=
  let rows := data.drop 1
  { revenue :=
      rows.foldl (fun s row => s + ((jsParseFloatCell (namedCell columns "Revenue" row)).getD 0)) 0
    users :=
      rows.foldl (fun s row => s + ((jsParseIntCell (namedCell columns "Users" row)).getD 0)) 0
    conversions :=
      rows.foldl (fun s row => s + ((jsParseIntCell (namedCell columns "Conversions" row)).getD 0)) 0
    growth :=
      (rows.foldl (fun s row => s + ((jsParseFloatCell (namedCell columns "Growth" row)).getD 0)) 0) /
        (rows.length : ℚ) }

/-- The metrics `useEffect` (route.ts:321-373): it recomputes only when
`data.length > 1 && columns.length > 0`; otherwise the previous state is
kept unchanged. -/
def metricsEffect (columns : List String) (data : List Row) (prev : Metrics) : Metrics :=
  if 1 < data.length ∧ 0 < columns.length then computeMetrics columns data else prev

/-- Client-side chart configuration state (route.ts:191-193). -/
structure ChartConfig where
  chartType : String
  xColumn : String
  yColumn : String
deriving DecidableEq, Repr

/-- Initial chart configuration (route.ts:191-193). -/
def chartConfigInit : ChartConfig := ⟨"bar", "", ""⟩

/-- A parsed resolver response; each of the three fields may be absent. -/
structure ResolverResult where
  chartType : Option String
  xColumn : Option String
  yColumn : Option String
deriving DecidableEq, Repr

/-- JavaScript truthiness of a possibly-absent string field. -/
def truthy : Option String → Bool
  | none => false
  | some s => s != ""

/-- Acceptance step of `interpretInstruction` (route.ts:658-664): the
selection is applied only when all three fields are truthy; otherwise the
prior configuration is kept whole and the failure is reported (`false`). -/
def applyResolverResult (r : ResolverResult) (st : ChartConfig) : ChartConfig × Bool :=
  if truthy r.chartType && truthy r.xColumn && truthy r.yColumn then
    ({ chartType := r.chartType.getD "", xColumn := r.xColumn.getD "",
       yColumn := r.yColumn.getD "" }, true)
  else (st, false)

/-! ## Helper lemmas shared by several claims -/

/-- `localeCompare` changes sign when its arguments are swapped. -/
theorem localeCompare_swap (a b : String) : localeCompare b a = - localeCompare a b := by
  unfold localeCompare
  rcases lt_trichotomy a b with h | h | h
  · rw [if_neg (asymm h), if_neg (Ne.symm (ne_of_lt h)), if_pos h]
    decide
  · subst h
    simp
  · rw [if_pos h, if_neg (asymm h), if_neg (ne_of_gt h)]

/-- Swapping the rows negates the comparator, for either direction. -/
theorem rowCmp_swap (col : Nat) (dir : SortDir) (a b : Row) :
    rowCmp col dir b a = - rowCmp col dir a b := by
  unfold rowCmp cellCmp
  cases hA : jsToNumber (cellAt a col) <;> cases hB : jsToNumber (cellAt b col) <;> cases dir
  all_goals dsimp only
  all_goals try simp only
    [localeCompare_swap (cellToString (cellAt a col)) (cellToString (cellAt b col))]
  all_goals push_cast
  all_goals ring

/-- The induced `≤` on rows is total. -/
theorem rowLe_total (col : Nat) (dir : SortDir) (a b : Row) :
    (rowLe col dir a b || rowLe col dir b a) = true := by
  by_cases h : rowCmp col dir a b ≤ 0
  · simp [rowLe, h]
  · have hba : rowCmp col dir b a ≤ 0 := by
      rw [rowCmp_swap]
      linarith
    simp [rowLe, hba]

/-! ## C1 — date-range filter on unparsable date cells -/

/-- C1: evaluation at the failing input. With a date column present and a
start bound set, the row whose date cell does not parse (`"garbage"` yields
an Invalid Date, `jsDate = none`) is dropped by the date-range stage, not
kept: the `catch` that would implement the fail-open policy is unreachable
because `new Date` never throws and comparisons against an Invalid Date are
all `false`. -/
theorem C1_unparsable_date_row_dropped :
    jsDate (Cell.str "garbage") = none ∧
    ("2024-01-02" : String) ≠ "" ∧
    dateFilter ["Date", "Revenue"] "2024-01-02" ""
        [[Cell.str "garbage", Cell.str "100"], [Cell.str "2024-01-05", Cell.str "200"]]
      = [[Cell.str "2024-01-05", Cell.str "200"]] := by
  refine ⟨by decide, by decide, by decide⟩

/-! ## C3 — metrics on an empty data-row set -/

/-- C3: for every table whose data-row set (`data.slice(1)`) is empty, the
metrics effect leaves the state at the all-zero initial metrics: the guard
`data.length > 1` fails, the computation (and with it the 0-row growth
division that would produce NaN) never runs, and the zero-initialised state
is what the UI surfaces. -/
theorem C3_empty_table_zero_metrics (columns : List String) (data : List Row)
    (h : data.drop 1 = []) :
    metricsEffect columns data metricsInit
      = { revenue := 0, users := 0, conversions := 0, growth := 0 } := by
  have hlen : data.length ≤ 1 := by
    cases data with
    | nil => simp
    | cons a t =>
      simp only [List.drop_succ_cons, List.drop_zero] at h
      simp [h]
  have hng : ¬ (1 < data.length ∧ 0 < columns.length) := by
    rintro ⟨h1, -⟩
    omega
  simp [metricsEffect, hng, metricsInit]

/-- Witness for C3 at a concrete header-only table. -/
theorem C3_empty_table_zero_metrics_witness :
    metricsEffect ["Date", "Revenue"] [[Cell.str "Date", Cell.str "Revenue"]] metricsInit
      = { revenue := 0, users := 0, conversions := 0, growth := 0 } :=
  C3_empty_table_zero_metrics ["Date", "Revenue"] [[Cell.str "Date", Cell.str "Revenue"]] rfl

/-! ## C10 — resolver acceptance is truthiness of all three fields -/

/-- C10: the client accepts a resolver response exactly when all three of
`chartType`, `xColumn`, `yColumn` are truthy; on rejection the prior
configuration is returned unchanged; in particular a field that is present
but the empty string forces rejection with the prior state intact. -/
theorem C10_resolver_truthiness (r : ResolverResult) (st : ChartConfig) :
    (applyResolverResult r st).2
        = (truthy r.chartType && truthy r.xColumn && truthy r.yColumn) ∧
    ((applyResolverResult r st).2 = false → (applyResolverResult r st).1 = st) ∧
    (r.chartType = some "" ∨ r.xColumn = some "" ∨ r.yColumn = some "" →
      applyResolverResult r st = (st, false)) := by
  by_cases hc : (truthy r.chartType && truthy r.xColumn && truthy r.yColumn) = true
  · refine ⟨by simp [applyResolverResult, hc], by simp [applyResolverResult, hc], ?_⟩
    rintro (h | h | h) <;> simp [h, truthy] at hc
  · refine ⟨?_, ?_, ?_⟩
    · simp [applyResolverResult, hc]
    · intro hf
      simp [applyResolverResult, hc]
    · intro hf
      simp [applyResolverResult, hc]

/-- Witness for C10: a response whose `xColumn` is the empty string is
rejected and the configuration is untouched. -/
theorem C10_resolver_truthiness_witness :
    applyResolverResult ⟨some "bar", some "", some "Revenue"⟩ chartConfigInit
      = (chartConfigInit, false) :=
  (C10_resolver_truthiness ⟨some "bar", some "", some "Revenue"⟩ chartConfigInit).2.2
    (Or.inr (Or.inl rfl))

/-! ## C2 — resolver validation of `chartType` -/

/-- C2 counterexample: the client never validates `chartType` against the
four known values — a response carrying `chartType = "scatter"` (with truthy
column fields) is accepted and applied verbatim. -/
theorem C2_chartType_not_validated :
    (applyResolverResult ⟨some "scatter", some "Date", some "Revenue"⟩ chartConfigInit)
        = ({ chartType := "scatter", xColumn := "Date", yColumn := "Revenue" }, true) ∧
    ("scatter" ∈ ["bar", "line", "pie", "donut"] → False) := by
  refine ⟨by decide, by decide⟩

/-- C2 amended: acceptance checks only that the three fields are present and
truthy — `chartType` is not checked against the four known values — while a
response missing any of the three required fields is rejected with no field
of the prior selection changed. -/
theorem C2_missing_field_is_error (r : ResolverResult) (st : ChartConfig) :
    (r.chartType = none ∨ r.xColumn = none ∨ r.yColumn = none →
      applyResolverResult r st = (st, false)) ∧
    ((applyResolverResult r st).2 = true →
      truthy r.chartType = true ∧ truthy r.xColumn = true ∧ truthy r.yColumn = true) := by
  by_cases hc : (truthy r.chartType && truthy r.xColumn && truthy r.yColumn) = true
  · refine ⟨?_, ?_⟩
    · rintro (h | h | h) <;> simp [h, truthy] at hc
    · intro hf
      simp at hc
      exact ⟨hc.1.1, hc.1.2, hc.2⟩
  · refine ⟨?_, ?_⟩
    · intro hf
      simp [applyResolverResult, hc]
    · intro hf
      simp [applyResolverResult, hc] at hf

/-- Witness for C2 (amended form): a response with no `chartType` field is
rejected and the prior configuration survives whole. -/
theorem C2_missing_field_is_error_witness :
    applyResolverResult ⟨none, some "Date", some "Revenue"⟩ chartConfigInit
      = (chartConfigInit, false) :=
  (C2_missing_field_is_error ⟨none, some "Date", some "Revenue"⟩ chartConfigInit).1
    (Or.inl rfl)

/-! ## C8 — text filter is monotone -/

/-- C8: with empty text, the text filter returns the rows unchanged; with any
text it returns a subsequence of its input (never more rows); and a row is
kept exactly when some cell, case-insensitively stringified, contains the
filter text as a substring. -/
theorem C8_text_filter_monotone (t : String) (rows : List Row) :
    (t = "" → textFilter t rows = rows) ∧
    (textFilter t rows).Sublist rows ∧
    (textFilter t rows).length ≤ rows.length ∧
    (t ≠ "" → textFilter t rows = rows.filter (rowMatchesText t)) ∧
    (∀ row, row ∈ textFilter t rows ↔
      row ∈ rows ∧ (t ≠ "" → rowMatchesText t row = true)) := by
  have hsub : (textFilter t rows).Sublist rows := by
    unfold textFilter
    split
    · exact List.Sublist.refl rows
    · exact List.filter_sublist rows
  refine ⟨fun h => by simp [textFilter, h], hsub, hsub.length_le,
    fun h => by simp [textFilter, h], ?_⟩
  intro row
  by_cases h : t = ""
  · simp [textFilter, h]
  · simp [textFilter, h, List.mem_filter]

/-- Witness for C8 at concrete inputs: the empty text is a no-op, and a
non-empty text filters. -/
theorem C8_text_filter_monotone_witness :
    textFilter "" ([[Cell.str "a"]] : List Row) = [[Cell.str "a"]] ∧
    textFilter "b" ([[Cell.str "a"]] : List Row)
      = ([[Cell.str "a"]] : List Row).filter (rowMatchesText "b") :=
  ⟨(C8_text_filter_monotone "" [[Cell.str "a"]]).1 rfl,
    (C8_text_filter_monotone "b" [[Cell.str "a"]]).2.2.2.1 (by decide)⟩

/-! ## C9 — chart projection on absent columns; chart type irrelevant -/

/-- C9: a selection whose `xColumn` (resp. `yColumn`) is not in the current
header yields empty labels (resp. an empty dataset) instead of throwing, and
the chart type has no effect on the extracted labels or dataset values. -/
theorem C9_chart_projection (columns : List String) (data : List Row)
    (sel : ChartSelection) :
    (sel.xColumn ∉ columns → (chartData columns data sel).labels = []) ∧
    (sel.yColumn ∉ columns → (chartData columns data sel).datasetData = []) ∧
    (∀ ct, chartData columns data { sel with chartType := ct }
      = chartData columns data sel) := by
  refine ⟨?_, ?_, fun ct => rfl⟩
  · intro h
    simp [chartData, h]
  · intro h
    simp [chartData, h]

/-- Witness for C9: a selection over absent columns on a concrete header. -/
theorem C9_chart_projection_witness :
    (chartData ["A"] [] ⟨"bar", "X", "Y"⟩).labels = [] ∧
    (chartData ["A"] [] ⟨"bar", "X", "Y"⟩).datasetData = [] ∧
    chartData ["A"] [] ⟨"line", "X", "Y"⟩ = chartData ["A"] [] ⟨"bar", "X", "Y"⟩ :=
  ⟨(C9_chart_projection ["A"] [] ⟨"bar", "X", "Y"⟩).1 (by decide),
    (C9_chart_projection ["A"] [] ⟨"bar", "X", "Y"⟩).2.1 (by decide),
    (C9_chart_projection ["A"] [] ⟨"bar", "X", "Y"⟩).2.2 "line"⟩

/-! ## C6 — pagination -/

/-- Concatenating the `rowsPerPage`-sized chunks of a list, one per index in
`range k`, reconstructs the list as soon as `rowsPerPage * k` covers its
length. -/
theorem flatten_chunks (k : Nat) : ∀ l : List Row, l.length ≤ rowsPerPage * k →
    ((List.range k).map fun i => (l.drop (rowsPerPage * i)).take rowsPerPage).flatten = l := by
  induction k with
  | zero =>
    intro l h
    have hl : l = [] := by
      cases l with
      | nil => rfl
      | cons a t => simp [rowsPerPage] at h
    subst hl
    simp
  | succ k ih =>
    intro l h
    rw [List.range_succ_eq_map, List.map_cons, List.map_map, List.flatten_cons]
    have h2 : ((List.range k).map
          ((fun i => (l.drop (rowsPerPage * i)).take rowsPerPage) ∘ Nat.succ))
        = (List.range k).map
            fun i => ((l.drop rowsPerPage).drop (rowsPerPage * i)).take rowsPerPage := by
      apply List.map_congr_left
      intro i hi
      simp only [Function.comp_apply, List.drop_drop]
      congr 2
      simp [rowsPerPage]
      ring
    have h3 : (l.drop rowsPerPage).length ≤ rowsPerPage * k := by
      simp only [List.length_drop, rowsPerPage] at *
      omega
    rw [h2, ih (l.drop rowsPerPage) h3]
    simp only [Nat.mul_zero, List.drop_zero]
    exact List.take_append_drop rowsPerPage l

/-- C6: `totalPages` is the least page count whose capacity covers the rows
(that is, `ceil(n / pageSize)` for `pageSize = 10`); a page beyond
`totalPages` yields the empty slice; and concatenating `paginatedRows` for
pages `1..totalPages` in order reconstructs the full sequence exactly. -/
theorem C6_pagination (rows : List Row) :
    (rows.length ≤ rowsPerPage * totalPages rows.length ∧
      ∀ k, rows.length ≤ rowsPerPage * k → totalPages rows.length ≤ k) ∧
    (∀ p, totalPages rows.length < p → paginatedRows p rows = []) ∧
    ((List.range (totalPages rows.length)).map fun i => paginatedRows (i + 1) rows).flatten
      = rows := by
  refine ⟨⟨?_, ?_⟩, ?_, ?_⟩
  · simp only [totalPages, rowsPerPage]
    omega
  · intro k hk
    simp only [totalPages, rowsPerPage] at *
    omega
  · intro p hp
    unfold paginatedRows
    have hlen : rows.length ≤ (p - 1) * rowsPerPage := by
      simp only [totalPages, rowsPerPage] at hp ⊢
      omega
    rw [List.drop_eq_nil_of_le hlen]
    simp
  · have hb : rows.length ≤ rowsPerPage * totalPages rows.length := by
      simp only [totalPages, rowsPerPage]
      omega
    have hfun : ∀ i ∈ List.range (totalPages rows.length),
        paginatedRows (i + 1) rows = (rows.drop (rowsPerPage * i)).take rowsPerPage := by
      intro i hi
      unfold paginatedRows
      rw [Nat.add_sub_cancel, Nat.mul_comm]
    rw [List.map_congr_left hfun, flatten_chunks _ _ hb]

/-- Witness for C6 on twelve one-cell rows: two pages suffice, and page 3 is
the empty slice. -/
theorem C6_pagination_witness :
    totalPages (List.replicate 12 ([Cell.num 0] : Row)).length ≤ 2 ∧
    paginatedRows 3 (List.replicate 12 ([Cell.num 0] : Row)) = [] :=
  ⟨(C6_pagination (List.replicate 12 [Cell.num 0])).1.2 2 (by decide),
    (C6_pagination (List.replicate 12 [Cell.num 0])).2.1 3 (by decide)⟩

/-! ## C7 — visible page-number window -/

/-- The window has exactly the announced number of entries. -/
theorem pageWindow_length (s : Int) (k : Nat) : (pageWindow s k).length = k := by
  simp only [pageWindow, List.length_map, List.length_range]

/-- Every entry of the window lies in `[s, s + k)`. -/
theorem pageWindow_mem {s : Int} {k : Nat} {x : Int} (hx : x ∈ pageWindow s k) :
    s ≤ x ∧ x < s + k := by
  unfold pageWindow at hx
  rw [List.mem_map] at hx
  obtain ⟨i, hi, rfl⟩ := hx
  rw [List.mem_range] at hi
  omega

/-- C7: for `currentPage ≥ 1` and `totalPages ≥ 0`, the visible page window
is a run of consecutive page numbers of length `min totalPages 5` — so at
most 5, the full 5 whenever enough pages exist — contained in
`[1, totalPages]` and starting at a page `≥ 1` (the slid-back start). -/
theorem C7_visible_pages (page tp : Int) (hp : 1 ≤ page) (htp : 0 ≤ tp) :
    (visiblePages page tp).length = (min tp 5).toNat ∧
    (visiblePages page tp).length ≤ 5 ∧
    (∀ x ∈ visiblePages page tp, 1 ≤ x ∧ x ≤ tp) ∧
    (∃ s : Int, 1 ≤ s ∧ visiblePages page tp = pageWindow s ((min tp 5).toNat)) := by
  simp only [visiblePages]
  split_ifs with hc
  · refine ⟨?_, ?_, ?_, ?_⟩
    · rw [pageWindow_length]
      omega
    · rw [pageWindow_length]
      omega
    · intro x hx
      have h2 := pageWindow_mem hx
      omega
    · refine ⟨max 1 (min tp (max 1 (page - 2) + 4) - 4), by omega, ?_⟩
      congr 1
      omega
  · refine ⟨?_, ?_, ?_, ?_⟩
    · rw [pageWindow_length]
      omega
    · rw [pageWindow_length]
      omega
    · intro x hx
      have h2 := pageWindow_mem hx
      omega
    · refine ⟨max 1 (page - 2), by omega, ?_⟩
      congr 1
      omega

/-- Witness for C7 at `currentPage = 3`, `totalPages = 7`. -/
theorem C7_visible_pages_witness :
    (visiblePages 3 7).length ≤ 5 ∧ ∀ x ∈ visiblePages 3 7, 1 ≤ x ∧ x ≤ 7 :=
  ⟨(C7_visible_pages 3 7 (by decide) (by decide)).2.1,
    (C7_visible_pages 3 7 (by decide) (by decide)).2.2.1⟩

/-! ## C5 — comparator semantics, direction reversal, copy semantics -/

/-- C5: at the sort column, the comparator is the numeric difference when
both cells coerce to numbers without NaN, and otherwise the case-sensitive
locale string comparison of the stringified cells; `desc` is the exact
reversal of `asc`; and the sort produces a permutation of its input without
touching it (`[...rows].sort` operates on a copy). -/
theorem C5_sort_comparator (col : Nat) (a b : Row) :
    (∀ x y, jsToNumber (cellAt a col) = some x → jsToNumber (cellAt b col) = some y →
      rowCmp col .asc a b = x - y ∧ rowCmp col .desc a b = y - x) ∧
    ((jsToNumber (cellAt a col) = none ∨ jsToNumber (cellAt b col) = none) →
      rowCmp col .asc a b
          = (localeCompare (cellToString (cellAt a col)) (cellToString (cellAt b col)) : ℚ) ∧
      rowCmp col .desc a b
          = (localeCompare (cellToString (cellAt b col)) (cellToString (cellAt a col)) : ℚ)) ∧
    (rowCmp col .desc a b = - rowCmp col .asc a b) ∧
    (∀ dir rows, (sortRows (some col) dir rows).Perm rows) := by
  refine ⟨?_, ?_, ?_, ?_⟩
  · intro x y hx hy
    unfold rowCmp cellCmp
    rw [hx, hy]
    exact ⟨rfl, rfl⟩
  · intro h
    unfold rowCmp cellCmp
    rcases h with h | h
    · rw [h]
      cases hB : jsToNumber (cellAt b col) <;> exact ⟨rfl, rfl⟩
    · rw [h]
      cases hA : jsToNumber (cellAt a col) <;> exact ⟨rfl, rfl⟩
  · unfold rowCmp cellCmp
    cases hA : jsToNumber (cellAt a col) <;> cases hB : jsToNumber (cellAt b col)
    all_goals dsimp only
    all_goals try simp only
      [localeCompare_swap (cellToString (cellAt a col)) (cellToString (cellAt b col))]
    all_goals push_cast
    all_goals ring
  · intro dir rows
    unfold sortRows
    exact List.mergeSort_perm rows (rowLe col dir)

/-- Witness for C5: a numeric pair compares by difference, and a pair with a
non-numeric cell falls back to the string comparison. -/
theorem C5_sort_comparator_witness :
    rowCmp 0 .asc [Cell.num 1] [Cell.num 2] = (1 : ℚ) - 2 ∧
    rowCmp 0 .asc [Cell.num 1] [Cell.str "x"]
      = (localeCompare (cellToString (cellAt [Cell.num 1] 0))
          (cellToString (cellAt [Cell.str "x"] 0)) : ℚ) :=
  ⟨((C5_sort_comparator 0 [Cell.num 1] [Cell.num 2]).1 1 2 (by decide) (by decide)).1,
    ((C5_sort_comparator 0 [Cell.num 1] [Cell.str "x"]).2.1 (Or.inr (by decide))).1⟩

/-! ## C4 — sorting: idempotence and stability -/

/-- C4 counterexample. The comparator mixes numeric and string comparison and
is cyclic on mixed cells (`"9" < "10"` numerically, `"10" < "5a"` and
`"5a" < "9"` as strings), so the claim fails as stated: sorting the sorted
sequence `[["10"],["5a"],["9"]]` again gives `[["9"],["10"],["5a"]]` —
idempotence fails — and on `[["5!"],["5.0"],["5"]]` the tied rows `["5.0"]`
and `["5"]` (their cells compare numerically equal) come out in the order
`["5"]`, `["5.0"]`, reversing their original relative order — stability
fails as well. -/
theorem C4_sort_not_idempotent :
    sortRows (some 0) .asc (sortRows (some 0) .asc
        [[Cell.str "9"], [Cell.str "5a"], [Cell.str "10"]])
      ≠ sortRows (some 0) .asc [[Cell.str "9"], [Cell.str "5a"], [Cell.str "10"]] ∧
    rowCmp 0 .asc [Cell.str "5.0"] [Cell.str "5"] = 0 ∧
    sortRows (some 0) .asc [[Cell.str "5!"], [Cell.str "5.0"], [Cell.str "5"]]
      = [[Cell.str "5"], [Cell.str "5!"], [Cell.str "5.0"]] := by
  have h1 : sortRows (some 0) .asc [[Cell.str "9"], [Cell.str "5a"], [Cell.str "10"]]
      = [[Cell.str "10"], [Cell.str "5a"], [Cell.str "9"]] := by
    simp +decide [sortRows, List.mergeSort, List.splitInTwo, List.splitAt, List.splitAt.go,
      List.merge, rowLe, rowCmp, cellCmp, cellAt, jsToNumber, jsNumberStr, trimWs, takeDecimal,
      takeSign, takeDigits, digitsVal, cellToString, localeCompare]
  have h2 : sortRows (some 0) .asc [[Cell.str "10"], [Cell.str "5a"], [Cell.str "9"]]
      = [[Cell.str "9"], [Cell.str "10"], [Cell.str "5a"]] := by
    simp +decide [sortRows, List.mergeSort, List.splitInTwo, List.splitAt, List.splitAt.go,
      List.merge, rowLe, rowCmp, cellCmp, cellAt, jsToNumber, jsNumberStr, trimWs, takeDecimal,
      takeSign, takeDigits, digitsVal, cellToString, localeCompare]
  have h3 : sortRows (some 0) .asc [[Cell.str "5!"], [Cell.str "5.0"], [Cell.str "5"]]
      = [[Cell.str "5"], [Cell.str "5!"], [Cell.str "5.0"]] := by
    simp +decide [sortRows, List.mergeSort, List.splitInTwo, List.splitAt, List.splitAt.go,
      List.merge, rowLe, rowCmp, cellCmp, cellAt, jsToNumber, jsNumberStr, trimWs, takeDecimal,
      takeSign, takeDigits, digitsVal, cellToString, localeCompare]
  have h0 : rowCmp 0 .asc [Cell.str "5.0"] [Cell.str "5"] = 0 := by
    simp +decide [rowCmp, cellCmp, cellAt, jsToNumber, jsNumberStr, trimWs, takeDecimal,
      takeSign, takeDigits, digitsVal]
  refine ⟨?_, h0, h3⟩
  rw [h1, h2]
  decide

/-- C4 amended: whenever the comparator is transitive on the rows being
sorted — in particular whenever the sort-key cells are all numeric, or all
non-numeric — sorting is idempotent (sorting an already-sorted sequence by
the same spec returns it unchanged) and stable (a pair in comparator order
keeps its relative position, so tied rows keep their original relative
order). -/
theorem C4_sort_idempotent_stable_of_trans (col : Nat) (dir : SortDir) (rows : List Row)
    (htrans : ∀ a ∈ rows, ∀ b ∈ rows, ∀ c ∈ rows,
      rowLe col dir a b = true → rowLe col dir b c = true → rowLe col dir a c = true) :
    sortRows (some col) dir (sortRows (some col) dir rows) = sortRows (some col) dir rows ∧
    ∀ a b : Row, List.Sublist [a, b] rows → rowLe col dir a b = true →
      List.Sublist [a, b] (sortRows (some col) dir rows) := by
  have trans' : ∀ x y z : {r : Row // r ∈ rows},
      rowLeMem col dir rows x y = true → rowLeMem col dir rows y z = true →
      rowLeMem col dir rows x z = true :=
    fun x y z hxy hyz => htrans x.1 x.2 y.1 y.2 z.1 z.2 hxy hyz
  have total' : ∀ x y : {r : Row // r ∈ rows},
      (rowLeMem col dir rows x y || rowLeMem col dir rows y x) = true :=
    fun x y => rowLe_total col dir x.1 y.1
  have hmap : (rows.attach.mergeSort (rowLeMem col dir rows)).map Subtype.val
      = rows.mergeSort (rowLe col dir) := by
    rw [List.map_mergeSort (r := rowLeMem col dir rows) (f := Subtype.val)
        (s := rowLe col dir) (fun x _ y _ => rfl),
      List.attach_map_subtype_val]
  have hpair := List.sorted_mergeSort trans' total' rows.attach
  constructor
  · have hsorted : (rows.mergeSort (rowLe col dir)).Pairwise
        (fun a b => rowLe col dir a b = true) := by
      rw [← hmap]
      exact hpair.map Subtype.val (fun x y h => h)
    show (rows.mergeSort (rowLe col dir)).mergeSort (rowLe col dir)
        = rows.mergeSort (rowLe col dir)
    exact List.mergeSort_of_sorted hsorted
  · intro a b hsub hab
    have hsub' : List.Sublist [a, b] (rows.attach.map Subtype.val) := by
      rw [List.attach_map_subtype_val]
      exact hsub
    obtain ⟨l', hl', heq⟩ := List.sublist_map_iff.mp hsub'
    rcases l' with _ | ⟨x, _ | ⟨y, _ | ⟨z, t⟩⟩⟩
    · simp at heq
    · simp at heq
    · simp only [List.map_cons, List.map_nil, List.cons.injEq, and_true] at heq
      obtain ⟨ha, hb⟩ := heq
      have hxy : rowLeMem col dir rows x y = true := by
        unfold rowLeMem
        rw [ha, hb] at hab
        exact hab
      have hst := List.pair_sublist_mergeSort trans' total' hxy hl'
      have hmapped := hst.map Subtype.val
      rw [hmap] at hmapped
      show List.Sublist [a, b] (rows.mergeSort (rowLe col dir))
      rw [ha, hb]
      exact hmapped
    · simp at heq

/-- Witness for the amended C4: on a concrete one-row table the comparator
is trivially transitive and sorting twice equals sorting once. -/
theorem C4_sort_idempotent_stable_of_trans_witness :
    sortRows (some 0) .asc (sortRows (some 0) .asc [[Cell.num 1]])
      = sortRows (some 0) .asc [[Cell.num 1]] :=
  (C4_sort_idempotent_stable_of_trans 0 .asc [[Cell.num 1]]
    (by
      intro a ha b hb c hc h1 h2
      simp only [List.mem_singleton] at ha hb hc
      subst ha
      subst hb
      subst hc
      exact h2)).1
